import Mathlib

/-
Verification of the odds-anomaly bot (bot_anomalia_quote.py).

The development shallowly embeds the per-event state machine of main_loop
(lines 461-635) together with its helpers.  Prices and wall-clock times are
modelled as rationals (the Python code uses floats; all operations the claims
depend on are comparisons, subtraction and min/max, which agree with exact
arithmetic on the sampled values), millisecond timestamps as integers.

The module defines:
  GoalState        - the per-event mutable state (class GoalState, lines 60-73)
  parse_price_any  - the numeric branch of parse_price_any (lines 143-185)
  parse_score_tuple- score-string parsing, on the extracted digit groups
  detectLead       - lines 503-529: first-lead detection and last_score update
  fetchStep        - lines 548-617: one odds fetch and its consequences
  processEntity    - lines 499-617: the whole per-entity body of one tick
  runStates, sentCount, runTickCalls, runTickExc, loopIteration
                   - drivers folding processEntity over observation traces,
                     over the entities of one tick, and over raised errors
  lookupState, getOrCreate, stale, cleanup_states
                   - the registry: state creation (lines 504-508) and the
                     cleanup sweep (lines 619-626)
-/

inductive Team where
  | home
  | away
deriving DecidableEq

/-- Per-event state: class GoalState, lines 60-73.  The field last_log_ts is
omitted: it only throttles log lines and is never read by any decision.
Timestamps (goal_detected_at, baseline_set_at) are wall-clock values;
None in Python becomes Option.none. -/
structure GoalState where
  last_score : Nat × Nat
  goal_detected_at : Option ℚ
  scoring_team : Option Team
  baseline : Option ℚ
  notified : Bool
  tries : Nat
  baseline_set_at : Option ℚ
  max_seen : Option ℚ
deriving DecidableEq

/-- GoalState.__init__ (lines 64-73) with a given initial score. -/
def GoalState.init (score : Nat × Nat) : GoalState :=
  { last_score := score
    goal_detected_at := none
    scoring_team := none
    baseline := none
    notified := false
    tries := 0
    baseline_set_at := none
    max_seen := none }

/-- Configuration constants read from the environment (lines 33-44).
Fields keep the source names. -/
structure Config where
  MINUTE_CUTOFF : Nat
  MIN_RISE : ℚ
  WAIT_AFTER_GOAL_SEC : ℚ
  MAX_ODDS_CALLS_PER_LOOP : Nat
  ODDS_CALL_MIN_GAP_MS : ℤ

/-- The default values of the environment variables (lines 33-44). -/
def defaultConfig : Config :=
  { MINUTE_CUTOFF := 45
    MIN_RISE := 5/100
    WAIT_AFTER_GOAL_SEC := 45
    MAX_ODDS_CALLS_PER_LOOP := 3
    ODDS_CALL_MIN_GAP_MS := 800 }

/-- parse_score_tuple (lines 116-124) applied to the list of digit groups the
regex extracts from the score string; an empty or unparsable string yields the
empty list and hence the pair (0, 0). -/
def parse_score_tuple (nums : List Nat) : Nat × Nat :=
  match nums with
  | n0 :: n1 :: _ => (n0, n1)
  | _ => (0, 0)

/-- Numeric branch of parse_price_any (lines 143-158): a decimal value is
accepted exactly when it lies in the plausibility band [1.01, 1000];
anything else parses to None.  The fractional and American branches reduce
to the same final range check and are not needed by the claims. -/
def parse_price_any (x : Option ℚ) : Option ℚ :=
  match x with
  | none => none
  | some v => if 101/100 ≤ v ∧ v ≤ 1000 then some v else none

/-- The 1X2 quote returned by get_event_odds_1x2 (lines 366-456): per-side
prices already passed through parse_price_any, plus the suspended flag. -/
structure OddsQuote where
  home : Option ℚ
  draw : Option ℚ
  away : Option ℚ
  suspended : Bool
deriving DecidableEq

/-- Line 572: odds["home"] if st.scoring_team == "home" else odds["away"]. -/
def scorerPrice (st : GoalState) (q : OddsQuote) : Option ℚ :=
  if st.scoring_team = some Team.home then q.home else q.away

/-- Lines 503-529: the lead-detection part of the per-entity body.  A first
lead is the exact observation prev = (0,0) together with cur = (1,0) or
(0,1); when it fires with goal_detected_at still unset, every monitoring
field is reset and the goal timestamp recorded.  last_score is updated
unconditionally afterwards (line 529). -/
def detectLead (now : ℚ) (cur : Nat × Nat) (st : GoalState) : GoalState :=
  let first_lead := st.last_score = (0, 0) ∧ (cur = (1, 0) ∨ cur = (0, 1))
  let st1 :=
    if first_lead ∧ st.goal_detected_at = none then
      { st with
        goal_detected_at := some now
        scoring_team := some (if cur = (1, 0) then Team.home else Team.away)
        baseline := none
        notified := false
        tries := 0
        baseline_set_at := none
        max_seen := none }
    else st
  { st1 with last_score := cur }

/-- Lines 548-617: the consequences of one odds fetch for one entity, after
all the gates have passed.  tries is incremented first (line 551); a fetch
returning nothing trips the 40-attempt ceiling (lines 553-562); a suspended
market is skipped (lines 565-569); a missing leader price is skipped
(lines 572-575); with no baseline the price becomes the baseline
(lines 577-583); otherwise max_seen is raised and the rise alert fires when
the delta reaches MIN_RISE (lines 586-617).  The Bool result records whether
send_telegram_message was invoked; its return value is ignored by the code
(line 603), so delivery failure still marks the entity notified. -/
def fetchStep (cfg : Config) (st : GoalState) (now : ℚ) (fetch : Option OddsQuote) :
    GoalState × Bool :=
  let st1 : GoalState := { st with tries := st.tries + 1 }
  match fetch with
  | none =>
      if 40 < st1.tries then ({ st1 with notified := true }, false) else (st1, false)
  | some q =>
      if q.suspended then (st1, false)
      else
        match scorerPrice st1 q with
        | none => (st1, false)
        | some p =>
            match st1.baseline with
            | none =>
                ({ st1 with
                    baseline := some p
                    max_seen := some p
                    baseline_set_at := some now }, false)
            | some b =>
                let newMax : ℚ :=
                  match st1.max_seen with
                  | some m => if m < p then p else m
                  | none => p
                let st2 : GoalState := { st1 with max_seen := some newMax }
                let delta := p - b
                if cfg.MIN_RISE ≤ delta ∧ st2.notified = false then
                  ({ st2 with notified := true }, true)
                else (st2, false)

/-- The per-tick, per-entity inputs main_loop draws from the snapshot and the
clock: the reported minute, the parsed score, the wall-clock time now of the
tick (line 489), the millisecond clock reading at the rate-limit check
(line 541) and right after the odds call returns (line 549), and the value
the odds fetch would produce. -/
structure TickInput where
  minute : Option Nat
  cur_score : Nat × Nat
  now : ℚ
  nowMs : ℤ
  callEndMs : ℤ
  fetch : Option OddsQuote
deriving DecidableEq

/-- Result of one per-entity step: the new state, the threaded per-tick call
counter and global last-call timestamp, the (start, end) milliseconds of the
odds call when one was made, and whether the notifier was invoked. -/
structure StepResult where
  st : GoalState
  calls : Nat
  lastCallMs : ℤ
  made_call : Option (ℤ × ℤ)
  sent : Bool
deriving DecidableEq

/-- A step that performs no odds call: state possibly updated, rate-limit
state untouched. -/
def noCall (st : GoalState) (calls : Nat) (lastMs : ℤ) : StepResult :=
  { st := st, calls := calls, lastCallMs := lastMs, made_call := none, sent := false }

/-- Line 500: minute is not None and minute > MINUTE_CUTOFF. -/
def minuteOver (cutoff : Nat) : Option Nat → Bool
  | some m => decide (cutoff < m)
  | none => false

/-- Lines 499-617: the whole body of the per-entity loop for one tick.
The gates appear in source order: the minute cutoff (line 500), lead
detection and last_score update (503-529), the no-goal-or-already-notified
skip (532), the post-goal wait (536-538), the per-tick call budget (542) and
the global minimum gap between odds calls (544); then the odds call is made,
the global last-call timestamp is set to the post-call clock reading and the
per-tick counter incremented (548-550), and fetchStep applies the rest. -/
def processEntity (cfg : Config) (st0 : GoalState) (inp : TickInput)
    (calls : Nat) (lastMs : ℤ) : StepResult :=
  if minuteOver cfg.MINUTE_CUTOFF inp.minute = true then noCall st0 calls lastMs
  else
    let st2 := detectLead inp.now inp.cur_score st0
    match st2.goal_detected_at with
    | none => noCall st2 calls lastMs
    | some gAt =>
        if st2.notified = true then noCall st2 calls lastMs
        else if inp.now - gAt < cfg.WAIT_AFTER_GOAL_SEC then noCall st2 calls lastMs
        else if cfg.MAX_ODDS_CALLS_PER_LOOP ≤ calls then noCall st2 calls lastMs
        else if inp.nowMs - lastMs < cfg.ODDS_CALL_MIN_GAP_MS then noCall st2 calls lastMs
        else
          let r := fetchStep cfg st2 inp.now inp.fetch
          { st := r.1
            calls := calls + 1
            lastCallMs := inp.callEndMs
            made_call := some (inp.nowMs, inp.callEndMs)
            sent := r.2 }

/-- Fold of processEntity over the successive tick observations of a single
entity.  The per-tick call counter and global last-call timestamp are
supplied with each observation, since between the ticks of one entity they
are driven by the other entities of the loop. -/
def runStates (cfg : Config) : GoalState → List (TickInput × Nat × ℤ) → GoalState
  | st, [] => st
  | st, (inp, calls, lastMs) :: rest =>
      runStates cfg (processEntity cfg st inp calls lastMs).st rest

/-- Number of notifier invocations along the observation trace of a single
entity. -/
def sentCount (cfg : Config) : GoalState → List (TickInput × Nat × ℤ) → Nat
  | _, [] => 0
  | st, (inp, calls, lastMs) :: rest =>
      let r := processEntity cfg st inp calls lastMs
      (if r.sent then 1 else 0) + sentCount cfg r.st rest

/-- One tick over a list of entities (lines 488-617): the call counter starts
at 0 each tick (line 488) and the last-call timestamp is global.  Returns the
(start, end) millisecond stamps of every odds call made, in order. -/
def runTickCalls (cfg : Config) :
    List (GoalState × TickInput) → Nat → ℤ → List (ℤ × ℤ)
  | [], _, _ => []
  | (st, inp) :: rest, calls, lastMs =>
      let r := processEntity cfg st inp calls lastMs
      match r.made_call with
      | some c => c :: runTickCalls cfg rest r.calls r.lastCallMs
      | none => runTickCalls cfg rest r.calls r.lastCallMs

/-- Successive odds calls are spaced: each call starts at least gap
milliseconds after the previous call ended (initially: after the pre-tick
value of the global last-call timestamp). -/
def gapsOK (gap : ℤ) : ℤ → List (ℤ × ℤ) → Prop
  | _, [] => True
  | last, c :: rest => gap ≤ c.1 - last ∧ gapsOK gap c.2 rest

/-- One tick over a list of entities where each entity body may raise an
uncaught exception (the Bool flag; e.g. an AttributeError on a malformed
market entry inside get_event_odds_1x2).  The for loop of lines 491-617 has
no per-entity try, so the first raise aborts the remaining entities and
propagates to the except of lines 633-635.  Returns the results of the
entities actually processed and whether the tick aborted. -/
def runTickExc (cfg : Config) :
    List (GoalState × TickInput × Bool) → Nat → ℤ → List StepResult × Bool
  | [], _, _ => ([], false)
  | (st, inp, raisesErr) :: rest, calls, lastMs =>
      if raisesErr then ([], true)
      else
        let r := processEntity cfg st inp calls lastMs
        let t := runTickExc cfg rest r.calls r.lastCallMs
        (r :: t.1, t.2)

/-- How one iteration of the top-level while loop ends: the normal
time.sleep(CHECK_INTERVAL) of line 628, or the except branch of lines 633-635
(log, time.sleep(10), continue).  Both continue the loop. -/
inductive LoopOutcome where
  | normalSleep
  | errorSleep
deriving DecidableEq

/-- One iteration of the top-level while True loop (lines 464-635) over the
entities of one tick: an exception escaping the entity loop lands in the
except branch, which logs, sleeps and continues; otherwise the normal sleep
follows.  The loop never exits on an error. -/
def loopIteration (cfg : Config) (ents : List (GoalState × TickInput × Bool))
    (calls : Nat) (lastMs : ℤ) : LoopOutcome × List StepResult :=
  let r := runTickExc cfg ents calls lastMs
  (if r.2 then LoopOutcome.errorSleep else LoopOutcome.normalSleep, r.1)

/-- The registry map match_state (line 75), as an association list. -/
def lookupState (eid : String) : List (String × GoalState) → Option GoalState
  | [] => none
  | (k, v) :: rest => if k = eid then some v else lookupState eid rest

/-- Lines 504-508: match_state.get(eid) with creation of a fresh GoalState
from the currently observed score when the id is absent. -/
def getOrCreate (m : List (String × GoalState)) (eid : String)
    (score : Nat × Nat) : GoalState :=
  match lookupState eid m with
  | some st => st
  | none => GoalState.init score

/-- Line 621: the eviction predicate of the cleanup sweep - the goal
timestamp is set and lies more than 7200 seconds in the past. -/
def stale (now : ℚ) (st : GoalState) : Bool :=
  match st.goal_detected_at with
  | some t => decide (7200 < now - t)
  | none => false

/-- Lines 619-623: the cleanup sweep deletes exactly the stale entries. -/
def cleanup_states (now : ℚ) (m : List (String × GoalState)) :
    List (String × GoalState) :=
  m.filter (fun kv => !(stale now kv.2))

/-- A score pair that counts as a first lead: exactly (1,0) or (0,1)
(line 513). -/
def isLeadScore (c : Nat × Nat) : Bool := decide (c = (1, 0)) || decide (c = (0, 1))

/-- Whether a score sequence, read against a running previous value, contains
an adjacent observation pair prev = (0,0) followed by a lead score - the
exact condition line 513 tests on consecutive observations. -/
def hasLeadStep : (Nat × Nat) → List (Nat × Nat) → Bool
  | _, [] => false
  | prev, c :: rest => (decide (prev = (0, 0)) && isLeadScore c) || hasLeadStep c rest

/-- The invariant linking the two terminal-ish fields: a notified entity has
its goal timestamp set.  It holds for fresh states and is preserved by the
per-entity step. -/
def goalWF (st : GoalState) : Prop :=
  st.notified = true → st.goal_detected_at ≠ none

/-- Concrete non-suspended quote with the given home price. -/
def quoteH (p : ℚ) : OddsQuote :=
  { home := some p, draw := some 3, away := some 6, suspended := false }

/-- Concrete suspended quote. -/
def quoteSusp : OddsQuote :=
  { home := some (3/2), draw := some 3, away := some 6, suspended := true }

/-- Concrete quote carrying no price for the home side. -/
def quoteNoHome : OddsQuote :=
  { home := none, draw := some 3, away := some 6, suspended := false }

/-- Concrete tick observation: no minute reported, given score, wall-clock
time and millisecond clock, and the given fetch outcome. -/
def mkInput (score : Nat × Nat) (now : ℚ) (ms : ℤ) (fetch : Option OddsQuote) : TickInput :=
  { minute := none, cur_score := score, now := now, nowMs := ms, callEndMs := ms + 5,
    fetch := fetch }

/-- Concrete state: home lead detected at time 0, no baseline yet. -/
def stLead : GoalState :=
  { last_score := (1, 0), goal_detected_at := some 0, scoring_team := some Team.home,
    baseline := none, notified := false, tries := 0, baseline_set_at := none,
    max_seen := none }

/-- Concrete state: monitoring with committed baseline 1.45. -/
def stMon : GoalState :=
  { stLead with baseline := some (29/20), max_seen := some (29/20), tries := 1,
                baseline_set_at := some 50 }

/-- Concrete state: already notified. -/
def stNotified : GoalState :=
  { stMon with notified := true }

/-- Concrete state: lead detected, five failed attempts so far. -/
def stTried : GoalState :=
  { stLead with tries := 5 }

/-
Structural lemmas about detectLead, fetchStep and processEntity.
-/

theorem detectLead_last_score (now : ℚ) (cur : Nat × Nat) (st : GoalState) :
    (detectLead now cur st).last_score = cur := by
  unfold detectLead
  dsimp only

theorem detectLead_goal_eq (now : ℚ) (cur : Nat × Nat) (st : GoalState) :
    (detectLead now cur st).goal_detected_at =
      if (st.last_score = (0, 0) ∧ (cur = (1, 0) ∨ cur = (0, 1))) ∧ st.goal_detected_at = none
      then some now else st.goal_detected_at := by
  unfold detectLead
  dsimp only
  split <;> rfl

theorem detectLead_notified_eq (now : ℚ) (cur : Nat × Nat) (st : GoalState) :
    (detectLead now cur st).notified =
      if (st.last_score = (0, 0) ∧ (cur = (1, 0) ∨ cur = (0, 1))) ∧ st.goal_detected_at = none
      then false else st.notified := by
  unfold detectLead
  dsimp only
  split <;> rfl

theorem detectLead_goal_some (now : ℚ) (cur : Nat × Nat) (st : GoalState) (g : ℚ)
    (h : st.goal_detected_at = some g) :
    detectLead now cur st = { st with last_score := cur } := by
  unfold detectLead
  dsimp only
  rw [if_neg]
  rintro ⟨-, hc⟩
  rw [h] at hc
  exact Option.noConfusion hc

theorem fetchStep_frame (cfg : Config) (st : GoalState) (now : ℚ) (fetch : Option OddsQuote) :
    (fetchStep cfg st now fetch).1.goal_detected_at = st.goal_detected_at ∧
    (fetchStep cfg st now fetch).1.last_score = st.last_score ∧
    (fetchStep cfg st now fetch).1.scoring_team = st.scoring_team ∧
    (fetchStep cfg st now fetch).1.tries = st.tries + 1 := by
  unfold fetchStep
  cases fetch <;> dsimp only <;> (repeat' split) <;> exact ⟨rfl, rfl, rfl, rfl⟩

theorem scorerPrice_tries (st : GoalState) (q : OddsQuote) :
    scorerPrice { st with tries := st.tries + 1 } q = scorerPrice st q := rfl

theorem fetchStep_baseline_some (cfg : Config) (st : GoalState) (now : ℚ)
    (fetch : Option OddsQuote) (b : ℚ) (h : st.baseline = some b) :
    (fetchStep cfg st now fetch).1.baseline = some b := by
  unfold fetchStep
  cases fetch <;> dsimp only <;> (repeat' split) <;> simp_all

theorem fetchStep_sent_imp (cfg : Config) (st : GoalState) (now : ℚ)
    (fetch : Option OddsQuote) (h : (fetchStep cfg st now fetch).2 = true) :
    (fetchStep cfg st now fetch).1.notified = true := by
  unfold fetchStep at h ⊢
  cases fetch <;> dsimp only at h ⊢ <;> (repeat' split at h) <;> simp_all

theorem fetchStep_suspended (cfg : Config) (st : GoalState) (now : ℚ) (q : OddsQuote)
    (h : q.suspended = true) :
    fetchStep cfg st now (some q) = ({ st with tries := st.tries + 1 }, false) := by
  unfold fetchStep
  dsimp only
  rw [if_pos h]

theorem fetchStep_no_scorer (cfg : Config) (st : GoalState) (now : ℚ) (q : OddsQuote)
    (hs : q.suspended = false) (hp : scorerPrice st q = none) :
    fetchStep cfg st now (some q) = ({ st with tries := st.tries + 1 }, false) := by
  unfold fetchStep
  dsimp only
  rw [if_neg (by simp [hs]), scorerPrice_tries, hp]

theorem fetchStep_set_baseline (cfg : Config) (st : GoalState) (now : ℚ) (q : OddsQuote)
    (p : ℚ) (hb : st.baseline = none) (hs : q.suspended = false)
    (hp : scorerPrice st q = some p) :
    fetchStep cfg st now (some q) =
      ({ st with tries := st.tries + 1, baseline := some p, max_seen := some p,
                 baseline_set_at := some now }, false) := by
  unfold fetchStep
  dsimp only
  rw [if_neg (by simp [hs]), scorerPrice_tries, hp]
  have hb1 : ({ st with tries := st.tries + 1 } : GoalState).baseline = none := hb
  rw [hb1]

theorem fetchStep_fire (cfg : Config) (st : GoalState) (now : ℚ) (q : OddsQuote)
    (p b : ℚ) (hb : st.baseline = some b) (hs : q.suspended = false)
    (hp : scorerPrice st q = some p) (hn : st.notified = false)
    (hd : cfg.MIN_RISE ≤ p - b) :
    (fetchStep cfg st now (some q)).2 = true ∧
    (fetchStep cfg st now (some q)).1.notified = true := by
  unfold fetchStep
  dsimp only
  rw [if_neg (by simp [hs]), scorerPrice_tries, hp]
  have hb1 : ({ st with tries := st.tries + 1 } : GoalState).baseline = some b := hb
  rw [hb1]
  dsimp only
  rw [if_pos ⟨hd, hn⟩]
  exact ⟨rfl, rfl⟩

theorem pe_after_goal (cfg : Config) (st0 : GoalState) (inp : TickInput)
    (calls : Nat) (lastMs : ℤ) (g : ℚ) (h : st0.goal_detected_at = some g) :
    (processEntity cfg st0 inp calls lastMs).st.goal_detected_at = some g ∧
    (processEntity cfg st0 inp calls lastMs).st.scoring_team = st0.scoring_team ∧
    (∀ b : ℚ, st0.baseline = some b →
      (processEntity cfg st0 inp calls lastMs).st.baseline = some b) ∧
    (st0.notified = true →
      (processEntity cfg st0 inp calls lastMs).made_call = none ∧
      (processEntity cfg st0 inp calls lastMs).sent = false ∧
      (processEntity cfg st0 inp calls lastMs).st.notified = true) := by
  unfold processEntity
  dsimp only
  split
  · exact ⟨h, rfl, fun b hb => hb, fun hn => ⟨rfl, rfl, hn⟩⟩
  · rw [detectLead_goal_some inp.now inp.cur_score st0 g h]
    have hgoal : ({ st0 with last_score := inp.cur_score } : GoalState).goal_detected_at
        = some g := h
    have hnot : ({ st0 with last_score := inp.cur_score } : GoalState).notified
        = st0.notified := rfl
    have hsc : ({ st0 with last_score := inp.cur_score } : GoalState).scoring_team
        = st0.scoring_team := rfl
    have hbase : ({ st0 with last_score := inp.cur_score } : GoalState).baseline
        = st0.baseline := rfl
    generalize hS : ({ st0 with last_score := inp.cur_score } : GoalState) = s
    rw [hS] at hgoal hnot hsc hbase
    rw [hgoal]
    dsimp only
    by_cases hn2 : s.notified = true
    · rw [if_pos hn2]
      exact ⟨hgoal, hsc, fun b hb => hbase.trans hb,
             fun hn => ⟨rfl, rfl, hn2⟩⟩
    · rw [if_neg hn2]
      repeat' split
      all_goals try exact ⟨hgoal, hsc, fun b hb => hbase.trans hb,
        fun hn => absurd (hnot.trans hn) hn2⟩
      exact ⟨(fetchStep_frame cfg s inp.now inp.fetch).1.trans hgoal,
             (fetchStep_frame cfg s inp.now inp.fetch).2.2.1.trans hsc,
             fun b hb => fetchStep_baseline_some cfg s inp.now inp.fetch b (hbase.trans hb),
             fun hn => absurd (hnot.trans hn) hn2⟩

theorem pe_cases (cfg : Config) (st0 : GoalState) (inp : TickInput)
    (calls : Nat) (lastMs : ℤ) :
    (∃ st', processEntity cfg st0 inp calls lastMs = noCall st' calls lastMs) ∨
    (processEntity cfg st0 inp calls lastMs =
      { st := (fetchStep cfg (detectLead inp.now inp.cur_score st0) inp.now inp.fetch).1,
        calls := calls + 1, lastCallMs := inp.callEndMs,
        made_call := some (inp.nowMs, inp.callEndMs),
        sent := (fetchStep cfg (detectLead inp.now inp.cur_score st0) inp.now inp.fetch).2 } ∧
      calls < cfg.MAX_ODDS_CALLS_PER_LOOP ∧
      cfg.ODDS_CALL_MIN_GAP_MS ≤ inp.nowMs - lastMs) := by
  unfold processEntity
  dsimp only
  split
  · exact Or.inl ⟨st0, rfl⟩
  · split
    · exact Or.inl ⟨_, rfl⟩
    · repeat' split
      all_goals try exact Or.inl ⟨_, rfl⟩
      exact Or.inr ⟨rfl, by omega, by omega⟩

theorem pe_sent_notified (cfg : Config) (st0 : GoalState) (inp : TickInput)
    (calls : Nat) (lastMs : ℤ)
    (h : (processEntity cfg st0 inp calls lastMs).sent = true) :
    (processEntity cfg st0 inp calls lastMs).st.notified = true := by
  rcases pe_cases cfg st0 inp calls lastMs with ⟨st', heq⟩ | ⟨hyp, -, -⟩
  · rw [heq] at h
    exact absurd h (by simp [noCall])
  · rw [hyp] at h ⊢
    exact fetchStep_sent_imp cfg _ inp.now inp.fetch h

theorem pe_WF (cfg : Config) (st0 : GoalState) (inp : TickInput)
    (calls : Nat) (lastMs : ℤ) (hwf : goalWF st0) :
    goalWF (processEntity cfg st0 inp calls lastMs).st := by
  cases hg : st0.goal_detected_at with
  | some g =>
      intro _
      rw [(pe_after_goal cfg st0 inp calls lastMs g hg).1]
      exact Option.noConfusion
  | none =>
      unfold goalWF at hwf ⊢
      unfold processEntity
      dsimp only
      split
      · exact fun hn => hwf hn
      · split
        next heq =>
          intro hn
          exfalso
          have hde := detectLead_goal_eq inp.now inp.cur_score st0
          have hdn := detectLead_notified_eq inp.now inp.cur_score st0
          rw [heq] at hde
          by_cases hC : (st0.last_score = (0, 0) ∧
              (inp.cur_score = (1, 0) ∨ inp.cur_score = (0, 1))) ∧
              st0.goal_detected_at = none
          · rw [if_pos hC] at hde
            exact Option.noConfusion hde
          · rw [if_neg hC] at hdn
            have hn2 : (detectLead inp.now inp.cur_score st0).notified = true := hn
            rw [hdn] at hn2
            exact hwf hn2 hg
        next g heq =>
          intro _
          repeat' split
          all_goals intro hEq
          all_goals simp only [noCall] at hEq
          all_goals try (rw [heq] at hEq; exact Option.noConfusion hEq)
          rw [(fetchStep_frame cfg (detectLead inp.now inp.cur_score st0) inp.now inp.fetch).1,
              heq] at hEq
          exact Option.noConfusion hEq

theorem pe_call_none (cfg : Config) (st0 : GoalState) (inp : TickInput)
    (calls : Nat) (lastMs : ℤ)
    (h : (processEntity cfg st0 inp calls lastMs).made_call = none) :
    (processEntity cfg st0 inp calls lastMs).calls = calls ∧
    (processEntity cfg st0 inp calls lastMs).lastCallMs = lastMs := by
  rcases pe_cases cfg st0 inp calls lastMs with ⟨st', heq⟩ | ⟨heq, -, -⟩
  · rw [heq]
    exact ⟨rfl, rfl⟩
  · rw [heq] at h
    exact absurd h (by simp)

theorem pe_call_some (cfg : Config) (st0 : GoalState) (inp : TickInput)
    (calls : Nat) (lastMs : ℤ) (c : ℤ × ℤ)
    (h : (processEntity cfg st0 inp calls lastMs).made_call = some c) :
    c = (inp.nowMs, inp.callEndMs) ∧
    (processEntity cfg st0 inp calls lastMs).calls = calls + 1 ∧
    (processEntity cfg st0 inp calls lastMs).lastCallMs = inp.callEndMs ∧
    calls < cfg.MAX_ODDS_CALLS_PER_LOOP ∧
    cfg.ODDS_CALL_MIN_GAP_MS ≤ inp.nowMs - lastMs := by
  rcases pe_cases cfg st0 inp calls lastMs with ⟨st', heq⟩ | ⟨heq, h1, h2⟩
  · rw [heq] at h
    exact absurd h (by simp [noCall])
  · rw [heq] at h ⊢
    simp only [Option.some.injEq] at h
    exact ⟨h.symm, rfl, rfl, h1, h2⟩

theorem runTickCalls_len (cfg : Config) (es : List (GoalState × TickInput)) :
    ∀ (calls : Nat) (lastMs : ℤ),
    (runTickCalls cfg es calls lastMs).length + calls ≤
      max cfg.MAX_ODDS_CALLS_PER_LOOP calls := by
  induction es with
  | nil => intro calls lastMs; simp [runTickCalls]
  | cons e rest ih =>
      intro calls lastMs
      obtain ⟨st, inp⟩ := e
      unfold runTickCalls
      dsimp only
      cases hc : (processEntity cfg st inp calls lastMs).made_call with
      | none =>
          obtain ⟨hcalls, hlast⟩ := pe_call_none cfg st inp calls lastMs hc
          rw [hcalls, hlast]
          exact ih calls lastMs
      | some c =>
          obtain ⟨-, hcalls, hlast, hlt, -⟩ := pe_call_some cfg st inp calls lastMs c hc
          rw [hcalls, hlast]
          have := ih (calls + 1) inp.callEndMs
          simp only [List.length_cons]
          omega

theorem runTickCalls_gaps (cfg : Config) (es : List (GoalState × TickInput)) :
    ∀ (calls : Nat) (lastMs : ℤ),
    gapsOK cfg.ODDS_CALL_MIN_GAP_MS lastMs (runTickCalls cfg es calls lastMs) := by
  induction es with
  | nil => intro calls lastMs; trivial
  | cons e rest ih =>
      intro calls lastMs
      obtain ⟨st, inp⟩ := e
      unfold runTickCalls
      dsimp only
      cases hc : (processEntity cfg st inp calls lastMs).made_call with
      | none =>
          obtain ⟨hcalls, hlast⟩ := pe_call_none cfg st inp calls lastMs hc
          rw [hcalls, hlast]
          exact ih calls lastMs
      | some c =>
          obtain ⟨hcval, hcalls, hlast, -, hgap⟩ := pe_call_some cfg st inp calls lastMs c hc
          rw [hcalls, hlast]
          subst hcval
          exact ⟨hgap, ih (calls + 1) inp.callEndMs⟩

theorem pe_minute_ok (cfg : Config) (st0 : GoalState) (inp : TickInput)
    (calls : Nat) (lastMs : ℤ)
    (h : minuteOver cfg.MINUTE_CUTOFF inp.minute = false) :
    (processEntity cfg st0 inp calls lastMs).st.last_score = inp.cur_score ∧
    (processEntity cfg st0 inp calls lastMs).st.goal_detected_at =
      (detectLead inp.now inp.cur_score st0).goal_detected_at := by
  unfold processEntity
  dsimp only
  rw [if_neg (by simp [h])]
  split
  · exact ⟨detectLead_last_score _ _ _, rfl⟩
  · repeat' split
    all_goals try exact ⟨detectLead_last_score _ _ _, rfl⟩
    exact ⟨(fetchStep_frame cfg (detectLead inp.now inp.cur_score st0) inp.now
              inp.fetch).2.1.trans (detectLead_last_score _ _ _),
           (fetchStep_frame cfg (detectLead inp.now inp.cur_score st0) inp.now inp.fetch).1⟩

theorem sentCount_zero (cfg : Config) (ins : List (TickInput × Nat × ℤ)) :
    ∀ st : GoalState, goalWF st → st.notified = true → sentCount cfg st ins = 0 := by
  induction ins with
  | nil => intro st _ _; rfl
  | cons i rest ih =>
      intro st hwf hn
      obtain ⟨inp, calls, lastMs⟩ := i
      unfold sentCount
      dsimp only
      cases hg : st.goal_detected_at with
      | none => exact absurd hg (hwf hn)
      | some g =>
          obtain ⟨-, hsf, hnn⟩ := (pe_after_goal cfg st inp calls lastMs g hg).2.2.2 hn
          rw [hsf]
          simp only [if_false, Bool.false_eq_true, if_neg]
          rw [ih (processEntity cfg st inp calls lastMs).st
               (pe_WF cfg st inp calls lastMs hwf) hnn]

theorem sentCount_le_one (cfg : Config) (ins : List (TickInput × Nat × ℤ)) :
    ∀ st : GoalState, goalWF st → sentCount cfg st ins ≤ 1 := by
  induction ins with
  | nil => intro st _; exact Nat.zero_le 1
  | cons i rest ih =>
      intro st hwf
      obtain ⟨inp, calls, lastMs⟩ := i
      unfold sentCount
      dsimp only
      cases hs : (processEntity cfg st inp calls lastMs).sent with
      | false =>
          simpa using ih (processEntity cfg st inp calls lastMs).st
            (pe_WF cfg st inp calls lastMs hwf)
      | true =>
          have hz := sentCount_zero cfg rest (processEntity cfg st inp calls lastMs).st
            (pe_WF cfg st inp calls lastMs hwf)
            (pe_sent_notified cfg st inp calls lastMs hs)
          simp [hz]

theorem runStates_goal_iff (cfg : Config) (ins : List (TickInput × Nat × ℤ)) :
    ∀ st : GoalState,
    (∀ i ∈ ins, minuteOver cfg.MINUTE_CUTOFF i.1.minute = false) →
    ((runStates cfg st ins).goal_detected_at ≠ none ↔
      st.goal_detected_at ≠ none ∨
      hasLeadStep st.last_score (ins.map fun i => i.1.cur_score) = true) := by
  induction ins with
  | nil =>
      intro st _
      simp [runStates, hasLeadStep]
  | cons i rest ih =>
      intro st hm
      obtain ⟨inp, calls, lastMs⟩ := i
      have hmi : minuteOver cfg.MINUTE_CUTOFF inp.minute = false :=
        hm (inp, calls, lastMs) (List.mem_cons_self _ _)
      have hmr : ∀ i ∈ rest, minuteOver cfg.MINUTE_CUTOFF i.1.minute = false :=
        fun i hi => hm i (List.mem_cons_of_mem _ hi)
      unfold runStates
      obtain ⟨hlast, hgoal⟩ := pe_minute_ok cfg st inp calls lastMs hmi
      rw [detectLead_goal_eq] at hgoal
      have hIH := ih (processEntity cfg st inp calls lastMs).st hmr
      rw [hlast, hgoal] at hIH
      rw [hIH]
      simp only [List.map_cons, hasLeadStep, Bool.or_eq_true, Bool.and_eq_true,
        decide_eq_true_eq, isLeadScore]
      by_cases hC : (st.last_score = (0, 0) ∧ (inp.cur_score = (1, 0) ∨ inp.cur_score = (0, 1)))
        ∧ st.goal_detected_at = none
      · rw [if_pos hC]
        constructor
        · intro _
          exact Or.inr (Or.inl hC.1)
        · intro _
          exact Or.inl (by simp)
      · rw [if_neg hC]
        by_cases hg : st.goal_detected_at = none
        · simp only [hg, ne_eq, not_true_eq_false, false_or]
          have hnc : ¬(st.last_score = (0, 0) ∧
              (inp.cur_score = (1, 0) ∨ inp.cur_score = (0, 1))) := fun hc => hC ⟨hc, hg⟩
          constructor
          · intro h
            exact Or.inr h
          · rintro (h | h)
            · exact absurd h hnc
            · exact h
        · simp [hg]

theorem runTickExc_abort (cfg : Config) (pre : List (GoalState × TickInput × Bool)) :
    ∀ (e : GoalState × TickInput × Bool) (post : List (GoalState × TickInput × Bool))
      (calls : Nat) (lastMs : ℤ),
    (∀ x ∈ pre, x.2.2 = false) → e.2.2 = true →
    (runTickExc cfg (pre ++ e :: post) calls lastMs).1.length = pre.length ∧
    (runTickExc cfg (pre ++ e :: post) calls lastMs).2 = true := by
  induction pre with
  | nil =>
      intro e post calls lastMs _ he
      obtain ⟨st, inp, r⟩ := e
      simp only [Bool.decide_eq_true] at he
      simp only [List.nil_append, runTickExc, he]
      exact ⟨rfl, rfl⟩
  | cons x pre ih =>
      intro e post calls lastMs hpre he
      obtain ⟨st, inp, r⟩ := x
      have hx : r = false := hpre (st, inp, r) (List.mem_cons_self _ _)
      subst hx
      simp only [List.cons_append, runTickExc, Bool.false_eq_true, if_false]
      have := ih e post (processEntity cfg st inp calls lastMs).calls
        (processEntity cfg st inp calls lastMs).lastCallMs
        (fun y hy => hpre y (List.mem_cons_of_mem _ hy)) he
      simp only [List.append_eq, List.length_cons]
      exact ⟨by rw [this.1], this.2⟩

theorem stale_iff (now : ℚ) (st : GoalState) :
    stale now st = true ↔ ∃ t, st.goal_detected_at = some t ∧ 7200 < now - t := by
  unfold stale
  cases h : st.goal_detected_at <;> simp

theorem cleanup_mem_iff (now : ℚ) (m : List (String × GoalState))
    (kv : String × GoalState) :
    kv ∈ cleanup_states now m ↔ kv ∈ m ∧ stale now kv.2 = false := by
  unfold cleanup_states
  rw [List.mem_filter]
  simp

/-
Claim theorems.
-/

/-- C1 counterexample: after the lead, with the first two in-range leader
prices 1.50 and then 1.45, the committed baseline is 1.50 - the first valid
sample (lines 577-583) - and it is not the minimum 1.45 the claim requires.
There is no two-sample window in the code at all. -/
theorem C1_counterexample :
    (processEntity defaultConfig
        (processEntity defaultConfig stLead
          (mkInput (1, 0) 50 1000 (some (quoteH (3/2)))) 0 0).st
        (mkInput (1, 0) 60 2000 (some (quoteH (29/20)))) 0 1000).st.baseline
      = some (3/2) ∧
    (3/2 : ℚ) ≠ 29/20 := by
  constructor
  · norm_num [processEntity, detectLead, fetchStep, noCall, minuteOver, mkInput, stLead,
      quoteH, defaultConfig, scorerPrice]
  · norm_num

/-- C1 (amended): the committed baseline equals the first valid leader-side
price sampled after the lead event (not a minimum over a sample window), and
once a baseline is set on an entity whose lead event is recorded, no further
per-entity step ever changes it. -/
theorem C1_baseline_is_first_sample (cfg : Config) (st : GoalState) (now : ℚ)
    (q : OddsQuote) (p : ℚ) (st' : GoalState) (inp : TickInput) (calls : Nat)
    (lastMs : ℤ) (g b : ℚ)
    (hb : st.baseline = none) (hs : q.suspended = false)
    (hp : scorerPrice st q = some p)
    (hg : st'.goal_detected_at = some g) (hb' : st'.baseline = some b) :
    (fetchStep cfg st now (some q)).1.baseline = some p ∧
    (processEntity cfg st' inp calls lastMs).st.baseline = some b := by
  constructor
  · rw [fetchStep_set_baseline cfg st now q p hb hs hp]
  · exact (pe_after_goal cfg st' inp calls lastMs g hg).2.2.1 b hb'

/-- C1 witness: the amended statement evaluated on concrete states. -/
theorem C1_witness :
    (fetchStep defaultConfig stLead 50 (some (quoteH (3/2)))).1.baseline = some (3/2) ∧
    (processEntity defaultConfig stMon
      (mkInput (1, 0) 60 2000 (some (quoteH (29/20)))) 0 1000).st.baseline
      = some (29/20) :=
  C1_baseline_is_first_sample defaultConfig stLead 50 (quoteH (3/2)) (3/2) stMon
    (mkInput (1, 0) 60 2000 (some (quoteH (29/20)))) 0 1000 0 (29/20)
    rfl rfl rfl rfl rfl

/-- C2 counterexample: for the score sequence (0,0) then (1,0) then (1,1),
starting from a fresh entity, the notifier still fires (once) at the third
observation even though the score already deviated from (1,0) at the second:
the code never rejects on a score change after the lead (lines 512-533 have
no such check), refuting the claim that the entity is terminally rejected at
the second observation and can never notify. -/
theorem C2_counterexample :
    sentCount defaultConfig (GoalState.init (0, 0))
      [ (mkInput (1, 0) 0 0 none, 0, -100000),
        (mkInput (1, 1) 50 1000 (some (quoteH (29/20))), 0, 0),
        (mkInput (1, 1) 60 2000 (some (quoteH (3/2))), 0, 1000) ] = 1 := by
  norm_num [sentCount, processEntity, detectLead, fetchStep, noCall, minuteOver, mkInput,
    GoalState.init, quoteH, defaultConfig, scorerPrice]

/-- C2 (amended): once the lead event is recorded, no later observation -
whatever score it carries - rejects the entity: the goal timestamp and the
leading side persist unchanged through every further per-entity step, and
monitoring continues (the counterexample shows a notification firing after
the score deviated). -/
theorem C2_no_score_change_reject (cfg : Config) (st : GoalState) (inp : TickInput)
    (calls : Nat) (lastMs : ℤ) (g : ℚ) (hg : st.goal_detected_at = some g) :
    (processEntity cfg st inp calls lastMs).st.goal_detected_at = some g ∧
    (processEntity cfg st inp calls lastMs).st.scoring_team = st.scoring_team :=
  ⟨(pe_after_goal cfg st inp calls lastMs g hg).1,
   (pe_after_goal cfg st inp calls lastMs g hg).2.1⟩

/-- C2 witness: a deviating score observation (1,1) leaves the recorded lead
untouched. -/
theorem C2_witness :
    (processEntity defaultConfig stLead (mkInput (1, 1) 50 1000 none) 0 0).st.goal_detected_at
      = some 0 ∧
    (processEntity defaultConfig stLead
      (mkInput (1, 1) 50 1000 none) 0 0).st.scoring_team = stLead.scoring_team :=
  C2_no_score_change_reject defaultConfig stLead (mkInput (1, 1) 50 1000 none) 0 0 0 rfl

/-- C3 counterexample: a sampled leader price of 2.50 is accepted by
parse_price_any (whose only band is [1.01, 1000]) and is committed as the
baseline, and the entity is not rejected - refuting the claim that 2.50
causes an immediate terminal reject with no baseline ever set.  No
acceptableRange of [1.30, 1.90] exists anywhere in the code. -/
theorem C3_counterexample :
    parse_price_any (some (5/2)) = some (5/2) ∧
    (processEntity defaultConfig stLead
      (mkInput (1, 0) 50 1000 (some (quoteH (5/2)))) 0 0).st.baseline = some (5/2) ∧
    (processEntity defaultConfig stLead
      (mkInput (1, 0) 50 1000 (some (quoteH (5/2)))) 0 0).st.notified = false := by
  refine ⟨?_, ?_, ?_⟩ <;>
    norm_num [parse_price_any, processEntity, detectLead, fetchStep, noCall, minuteOver,
      mkInput, stLead, quoteH, defaultConfig, scorerPrice]

/-- C3 (amended): the only price validation is the plausibility band
[1.01, 1000] inside parse_price_any; a value outside it parses to None, and
a tick whose leader price is missing is merely skipped - the attempt counter
advances but no baseline is set and the entity is not marked terminal. -/
theorem C3_out_of_range_skips (v : ℚ) (cfg : Config) (st : GoalState) (now : ℚ)
    (q : OddsQuote) (hv : v < 101/100 ∨ 1000 < v) (hs : q.suspended = false)
    (hp : scorerPrice st q = none) :
    parse_price_any (some v) = none ∧
    fetchStep cfg st now (some q) = ({ st with tries := st.tries + 1 }, false) := by
  constructor
  · unfold parse_price_any
    dsimp only
    rw [if_neg]
    rcases hv with h | h
    · intro hc
      linarith [hc.1]
    · intro hc
      linarith [hc.2]
  · exact fetchStep_no_scorer cfg st now q hs hp

/-- C3 witness: the amended statement at the out-of-band price 5000 and a
quote with no leader-side price. -/
theorem C3_witness :
    parse_price_any (some 5000) = none ∧
    fetchStep defaultConfig stLead 50 (some quoteNoHome)
      = ({ stLead with tries := stLead.tries + 1 }, false) :=
  C3_out_of_range_skips 5000 defaultConfig stLead 50 quoteNoHome
    (Or.inr (by norm_num)) rfl rfl

/-- C4: along any observation trace of a fresh entity the notifier is invoked
at most once; when the delta from the committed baseline reaches MIN_RISE the
notifier fires and the entity is marked notified (the delivery result is
ignored by the code, so failure still marks it); and once notified with the
lead recorded, the entity makes no further odds call, never notifies again,
and stays notified. -/
theorem C4_notify_at_most_once (cfg : Config) (s0 : Nat × Nat)
    (ins : List (TickInput × Nat × ℤ)) :
    sentCount cfg (GoalState.init s0) ins ≤ 1 ∧
    (∀ (st : GoalState) (now : ℚ) (q : OddsQuote) (b p : ℚ),
        st.notified = false → st.baseline = some b → q.suspended = false →
        scorerPrice st q = some p → cfg.MIN_RISE ≤ p - b →
        (fetchStep cfg st now (some q)).2 = true ∧
        (fetchStep cfg st now (some q)).1.notified = true) ∧
    (∀ (st : GoalState) (inp : TickInput) (calls : Nat) (lastMs : ℤ) (g : ℚ),
        st.goal_detected_at = some g → st.notified = true →
        (processEntity cfg st inp calls lastMs).made_call = none ∧
        (processEntity cfg st inp calls lastMs).sent = false ∧
        (processEntity cfg st inp calls lastMs).st.notified = true) := by
  refine ⟨?_, ?_, ?_⟩
  · exact sentCount_le_one cfg ins (GoalState.init s0)
      (fun hn => absurd hn (by simp [GoalState.init]))
  · intro st now q b p hn hb hs hp hd
    exact fetchStep_fire cfg st now q p b hb hs hp hn hd
  · intro st inp calls lastMs g hg hn
    exact (pe_after_goal cfg st inp calls lastMs g hg).2.2.2 hn

/-- C4 witness: the three parts evaluated on concrete states - a rising price
fires, and an already-notified entity is inert. -/
theorem C4_witness :
    sentCount defaultConfig (GoalState.init (0, 0)) [] ≤ 1 ∧
    (fetchStep defaultConfig stMon 60 (some (quoteH (3/2)))).2 = true ∧
    (processEntity defaultConfig stNotified (mkInput (1, 0) 100 1000 none) 0 0).sent
      = false := by
  have h := C4_notify_at_most_once defaultConfig (0, 0) []
  exact ⟨h.1,
    (h.2.1 stMon 60 (quoteH (3/2)) (29/20) (3/2) rfl rfl rfl rfl
      (by norm_num [defaultConfig])).1,
    (h.2.2 stNotified (mkInput (1, 0) 100 1000 none) 0 0 0 rfl rfl).2.1⟩

/-- C5 counterexample: an entity first observed at (0,0) whose score sequence
is (2,0), then (0,0), then (1,0) reaches the lead-detected state (goal
timestamp set at the third observation) although the first non-(0,0) value it
observed, (2,0), is not a lead score - the code only compares consecutive
observations (line 513), so a sequence returning to (0,0) can still qualify,
refuting the only-if direction of the claim. -/
theorem C5_counterexample :
    (runStates defaultConfig (GoalState.init (0, 0))
      [ (mkInput (2, 0) 10 0 none, 0, 0),
        (mkInput (0, 0) 20 0 none, 0, 0),
        (mkInput (1, 0) 30 0 none, 0, 0) ]).goal_detected_at = some 30 ∧
    isLeadScore (2, 0) = false := by
  constructor
  · norm_num [runStates, processEntity, detectLead, fetchStep, noCall, minuteOver,
      mkInput, GoalState.init, defaultConfig]
  · rfl

/-- C5 (amended): for observations inside the minute cutoff, an entity
created at score s0 reaches the lead-detected state if and only if its
observation sequence contains an adjacent pair whose previous value is
exactly (0,0) and whose current value is exactly (1,0) or (0,1) - the code
checks consecutive observations only, not the first non-(0,0) value of the
whole sequence. -/
theorem C5_lead_iff_adjacent_pair (cfg : Config) (s0 : Nat × Nat)
    (ins : List (TickInput × Nat × ℤ))
    (hm : ∀ i ∈ ins, minuteOver cfg.MINUTE_CUTOFF i.1.minute = false) :
    ((runStates cfg (GoalState.init s0) ins).goal_detected_at ≠ none ↔
      hasLeadStep s0 (ins.map fun i => i.1.cur_score) = true) := by
  have h := runStates_goal_iff cfg ins (GoalState.init s0) hm
  simpa [GoalState.init] using h

/-- C5 witness: the amended equivalence evaluated on a one-step lead trace. -/
theorem C5_witness :
    ((runStates defaultConfig (GoalState.init (0, 0))
        [(mkInput (1, 0) 10 0 none, 0, 0)]).goal_detected_at ≠ none ↔
      hasLeadStep (0, 0)
        ([(mkInput (1, 0) 10 0 none, 0, 0)].map fun i => i.1.cur_score) = true) :=
  C5_lead_iff_adjacent_pair defaultConfig (0, 0) [(mkInput (1, 0) 10 0 none, 0, 0)]
    (by
      intro i hi
      rw [List.mem_singleton] at hi
      subst hi
      rfl)

/-- C6 counterexample: a suspended fetch result does increment the attempt
counter - tries goes from 5 to 6 - because line 551 increments before the
suspension check of line 565, refuting the claim that suspended ticks do not
count toward the attempt ceiling. -/
theorem C6_counterexample :
    (processEntity defaultConfig stTried
      (mkInput (1, 0) 50 1000 (some quoteSusp)) 0 0).st.tries = 6 ∧
    stTried.tries = 5 := by
  constructor
  · norm_num [processEntity, detectLead, fetchStep, noCall, minuteOver, mkInput, stTried,
      stLead, quoteSusp, defaultConfig, scorerPrice]
  · rfl

/-- C6 (amended): a suspended fetch increments the per-entity attempt counter
(tries) and changes nothing else - in particular the terminal 40-attempt
check is not run on that tick (it only runs when the fetch returns no odds at
all), but the incremented counter does advance toward that ceiling. -/
theorem C6_suspended_still_counts (cfg : Config) (st : GoalState) (now : ℚ)
    (q : OddsQuote) (hs : q.suspended = true) :
    fetchStep cfg st now (some q) = ({ st with tries := st.tries + 1 }, false) :=
  fetchStep_suspended cfg st now q hs

/-- C6 witness: the amended statement on a concrete suspended quote. -/
theorem C6_witness :
    fetchStep defaultConfig stTried 50 (some quoteSusp)
      = ({ stTried with tries := stTried.tries + 1 }, false) :=
  C6_suspended_still_counts defaultConfig stTried 50 quoteSusp rfl

/-- C7: in any single tick (the per-tick counter starts at 0, line 488) the
number of odds calls is at most MAX_ODDS_CALLS_PER_LOOP, and each call starts
at least ODDS_CALL_MIN_GAP_MS milliseconds after the previous call ended -
measured against the shared global last-call timestamp, so the spacing holds
across all entities, not per entity. -/
theorem C7_rate_limit (cfg : Config) (es : List (GoalState × TickInput)) (lastMs : ℤ) :
    (runTickCalls cfg es 0 lastMs).length ≤ cfg.MAX_ODDS_CALLS_PER_LOOP ∧
    gapsOK cfg.ODDS_CALL_MIN_GAP_MS lastMs (runTickCalls cfg es 0 lastMs) := by
  constructor
  · have h := runTickCalls_len cfg es 0 lastMs
    simpa using h
  · exact runTickCalls_gaps cfg es 0 lastMs

/-- C8 counterexample: with two entities in the tick where the first raises,
no entity result is produced at all - in particular the second, healthy
entity is not processed - because the try block of lines 464-635 wraps the
whole per-tick loop and has no per-entity handler; this refutes the claim
that the remaining entities of the tick are still processed.  The loop does
land in the except branch and continues. -/
theorem C8_counterexample :
    (runTickExc defaultConfig
      [ (GoalState.init (0, 0), mkInput (0, 0) 10 0 none, true),
        (GoalState.init (0, 0), mkInput (0, 0) 10 0 none, false) ] 0 0).1.length = 0 ∧
    (loopIteration defaultConfig
      [ (GoalState.init (0, 0), mkInput (0, 0) 10 0 none, true),
        (GoalState.init (0, 0), mkInput (0, 0) 10 0 none, false) ] 0 0).1
      = LoopOutcome.errorSleep := by
  constructor <;> rfl

/-- C8 (amended): an error raised while processing one entity aborts the
remaining entities of that tick - exactly the entities before the raising one
are processed - and the top-level loop catches the failure, logs, sleeps and
continues with the next tick rather than exiting. -/
theorem C8_error_aborts_rest_of_tick (cfg : Config)
    (pre post : List (GoalState × TickInput × Bool)) (e : GoalState × TickInput × Bool)
    (calls : Nat) (lastMs : ℤ)
    (hpre : ∀ x ∈ pre, x.2.2 = false) (he : e.2.2 = true) :
    (runTickExc cfg (pre ++ e :: post) calls lastMs).1.length = pre.length ∧
    (loopIteration cfg (pre ++ e :: post) calls lastMs).1 = LoopOutcome.errorSleep := by
  obtain ⟨h1, h2⟩ := runTickExc_abort cfg pre e post calls lastMs hpre he
  refine ⟨h1, ?_⟩
  unfold loopIteration
  dsimp only
  rw [h2]
  rfl

/-- C8 witness: one healthy entity before the raising one is processed, and
the loop continues through the error branch. -/
theorem C8_witness :
    (runTickExc defaultConfig
      [ (stLead, mkInput (1, 0) 10 0 none, false),
        (GoalState.init (0, 0), mkInput (0, 0) 10 0 none, true) ] 0 0).1.length = 1 ∧
    (loopIteration defaultConfig
      [ (stLead, mkInput (1, 0) 10 0 none, false),
        (GoalState.init (0, 0), mkInput (0, 0) 10 0 none, true) ] 0 0).1
      = LoopOutcome.errorSleep :=
  C8_error_aborts_rest_of_tick defaultConfig
    [(stLead, mkInput (1, 0) 10 0 none, false)] []
    (GoalState.init (0, 0), mkInput (0, 0) 10 0 none, true) 0 0
    (by
      intro x hx
      rw [List.mem_singleton] at hx
      subst hx
      rfl)
    rfl

/-- C9 counterexample: an entity whose lead was never detected survives the
cleanup sweep at an arbitrarily late time (here one million seconds), however
long it has been unseen and however old it is - the code tracks no last-seen
tick and no creation age, so neither the idle-eviction nor the hard-TTL
removal of the claim exists. -/
theorem C9_counterexample :
    cleanup_states 1000000 [("ev1", GoalState.init (0, 0))]
      = [("ev1", GoalState.init (0, 0))] ∧
    (GoalState.init (0, 0)).goal_detected_at = none := by
  constructor <;> rfl

/-- C9 (amended): the registry removes an entry exactly when its recorded
lead timestamp lies more than 7200 seconds in the past - the only eviction
rule in the code; and a snapshot id absent from the map (in particular one
just removed) gets a brand-new state built from the currently observed
score. -/
theorem C9_eviction_rule (now : ℚ) (m : List (String × GoalState))
    (kv : String × GoalState) (k : String) (sc : Nat × Nat)
    (hl : lookupState k m = none) :
    (kv ∈ cleanup_states now m ↔ kv ∈ m ∧ stale now kv.2 = false) ∧
    (stale now kv.2 = true ↔ ∃ t, kv.2.goal_detected_at = some t ∧ 7200 < now - t) ∧
    getOrCreate m k sc = GoalState.init sc := by
  refine ⟨cleanup_mem_iff now m kv, stale_iff now kv.2, ?_⟩
  unfold getOrCreate
  rw [hl]

/-- C9 witness: the eviction rule evaluated on a concrete map and a fresh
id. -/
theorem C9_witness :
    (("ev1", stLead) ∈ cleanup_states 100 [("ev1", stLead)] ↔
      ("ev1", stLead) ∈ [("ev1", stLead)] ∧ stale 100 stLead = false) ∧
    (stale 100 stLead = true ↔ ∃ t, stLead.goal_detected_at = some t ∧ 7200 < 100 - t) ∧
    getOrCreate [("ev1", stLead)] "ev2" (0, 0) = GoalState.init (0, 0) :=
  C9_eviction_rule 100 [("ev1", stLead)] ("ev1", stLead) "ev2" (0, 0) (by decide)

/-- C10: the cleanup sweep only ever removes entries whose lead timestamp is
set and lies more than 7200 seconds in the past, and an entry whose lead was
never detected (goal timestamp still None) is always kept - so such entries
accumulate for the life of the process. -/
theorem C10_only_staled_removed (now : ℚ) (m : List (String × GoalState))
    (k : String) (st : GoalState) (hm : (k, st) ∈ m) :
    (st.goal_detected_at = none → (k, st) ∈ cleanup_states now m) ∧
    ((k, st) ∉ cleanup_states now m →
      ∃ t, st.goal_detected_at = some t ∧ 7200 < now - t) := by
  constructor
  · intro hg
    rw [cleanup_mem_iff]
    refine ⟨hm, ?_⟩
    unfold stale
    rw [hg]
  · intro hnot
    cases hst : stale now st with
    | false => exact absurd ((cleanup_mem_iff now m (k, st)).2 ⟨hm, hst⟩) hnot
    | true => exact (stale_iff now st).1 hst

/-- C10 witness: a never-led entry is kept by the sweep at a late time. -/
theorem C10_witness :
    ("ev1", GoalState.init (0, 0))
      ∈ cleanup_states 1000000 [("ev1", GoalState.init (0, 0))] :=
  (C10_only_staled_removed 1000000 [("ev1", GoalState.init (0, 0))] "ev1"
    (GoalState.init (0, 0)) (List.mem_singleton.mpr rfl)).1 rfl
